import Mathlib

set_option maxRecDepth 10000

/-!
Shallow embedding of the schema-driven code generator in
`src/tools/schema_generator.py` (repository `aslan_drive`), together with
proofs and refutations of the specification claims about it.

Strings are modelled by Lean `String`; the Python string primitives the
source uses (`str.split`, `str.rstrip`, `str.join`, `str.capitalize`,
`sorted`, set deduplication, truthiness of `dict.get` results) are given
explicit executable models below, each documented with the Python
construct it translates.
-/

/-! ## Models of the Python string primitives used by the source -/

/-- Model of Python `str.capitalize()`: first character upper-cased, the
remaining characters lower-cased. -/
def pyCapitalize (s : String) : String :=
  match s.data with
  | [] => ""
  | c :: cs => String.mk (c.toUpper :: cs.map Char.toLower)

/-- Python's lexicographic string comparison (by code point), as used by
`sorted`. -/
def lexLe : List Char → List Char → Bool
  | [], _ => true
  | _ :: _, [] => false
  | a :: as, b :: bs =>
    if a.toNat < b.toNat then true
    else if b.toNat < a.toNat then false
    else lexLe as bs

/-- Insert a string into a `lexLe`-sorted list of strings. -/
def insertSorted (x : String) : List String → List String
  | [] => [x]
  | y :: ys => if lexLe x.data y.data then x :: y :: ys else y :: insertSorted x ys

/-- Model of Python `sorted(set(l))` for a list of strings: the distinct
elements of `l` in ascending lexicographic order. -/
def sortDedup (l : List String) : List String :=
  l.dedup.foldr insertSorted []

/-- Model of Python `str.split(c)` for a one-character separator `c`. -/
def splitOnChar (c : Char) : List Char → List (List Char)
  | [] => [[]]
  | x :: xs =>
    let r := splitOnChar c xs
    if x = c then [] :: r
    else
      match r with
      | [] => [[x]]
      | h :: t => (x :: h) :: t

/-- Model of Python `str.rstrip(")")`: remove every trailing `)` character. -/
def rstripRParen (l : List Char) : List Char :=
  (l.reverse.dropWhile (fun c => c = ')')).reverse

/-- Model of Python `sep.join(parts)`. -/
def pyJoin (sep : String) : List String → String
  | [] => ""
  | [x] => x
  | x :: y :: xs => x ++ sep ++ pyJoin sep (y :: xs)

/-- Model of Python `code.split("\n")`, splitting a string into its lines. -/
def strLines (s : String) : List String :=
  (splitOnChar '\n' s.data).map String.mk

/-! ## Data model (§3 of the spec; the JSON shapes read by the source)

A `ColumnDef` records the values the source reads out of one column's JSON
object: `col_def["type"]`, `col_def["python_type"]`, and the results of
`col_def.get("primary_key")` (Python truthiness, default absent/false),
`col_def.get("nullable", True)`, `col_def.get("default")` and
`col_def.get("description", ...)`.  Ordered JSON mappings (Python dicts
preserve insertion order) are modelled as association lists. -/

structure ColumnDef where
  type : String
  python_type : String
  primary_key : Bool := false
  nullable : Bool := true
  default : Option String := none
  description : Option String := none
deriving DecidableEq

structure IndexDef where
  name : String
  columns : List String
  unique : Bool := false
deriving DecidableEq

structure TableDef where
  description : Option String := none
  columns : List (String × ColumnDef)
  indexes : List IndexDef := []
deriving DecidableEq

structure Schema where
  version : Option String := none
  tables : List (String × TableDef)
deriving DecidableEq

/-- Python truthiness of `col_def.get("default")`: the key is present and
its value is a non-empty string. -/
def hasDefault (c : ColumnDef) : Bool :=
  match c.default with
  | none => false
  | some d => !d.data.isEmpty

/-! ## The generator (translated function by function from the source) -/

/-- Source `python_type_mapping` (lines 22-29): map a Python type name to
the import statement it needs, `""` when none. -/
def python_type_mapping (json_type : String) : String :=
  if json_type = "datetime.date" then "from datetime import date"
  else if json_type = "datetime.datetime" then "from datetime import datetime"
  else if json_type = "Decimal" then "from decimal import Decimal"
  else ""

/-- Model of `"".join(word.capitalize() for word in table_name.split("_"))`
(source lines 45 and 79). -/
def className (table_name : String) : String :=
  String.join ((splitOnChar '_' table_name.data).map (fun w => pyCapitalize (String.mk w)))

/-- The sorted import set of `generate_dataclass` (source lines 37-42, 48):
the two fixed imports plus the non-empty per-column mapped imports,
deduplicated and sorted. -/
def dataclass_imports (td : TableDef) : List String :=
  sortDedup (["from dataclasses import dataclass", "from typing import Optional"] ++
    td.columns.filterMap (fun p =>
      let i := python_type_mapping p.2.python_type
      if i = "" then none else some i))

/-- One dataclass field line (source lines 59-70): `Optional[...]` wrapper
and ` = None` default exactly when the column is nullable and not a
primary key. -/
def dataclassFieldLine (p : String × ColumnDef) : String :=
  let opt := p.2.nullable && !p.2.primary_key
  let py := if opt then "Optional[" ++ p.2.python_type ++ "]" else p.2.python_type
  let dv := if opt then " = None" else ""
  "    " ++ p.1 ++ ": " ++ py ++ dv ++ "  # " ++ p.2.description.getD ""

/-- The `lines` list built by `generate_dataclass` (source lines 47-70). -/
def dataclass_lines (tn : String) (td : TableDef) : List String :=
  dataclass_imports td ++
  ["", "", "@dataclass", "class " ++ className tn ++ ":",
   "    \"\"\"",
   "    " ++ td.description.getD ("Data class for " ++ tn ++ " table"),
   "    \"\"\""] ++
  td.columns.map dataclassFieldLine

/-- Source `generate_dataclass` (lines 32-72). -/
def generate_dataclass (tn : String) (td : TableDef) : String :=
  pyJoin "\n" (dataclass_lines tn td)

/-- The inline type decomposition of `generate_sqlalchemy_model` (source
lines 115-120), called `resolve_ddl` by the spec (§4.2):
`sql_type.split("(")[0]` and `sql_type.split("(")[1].rstrip(")")` when a
`(` is present, otherwise `(sql_type, None)`. -/
def resolve_ddl (s : String) : String × Option String :=
  match splitOnChar '(' s.data with
  | b :: p :: _ => (String.mk b, some (String.mk (rstripRParen p)))
  | _ => (s, none)

/-- Source `sqlalchemy_type_map` (lines 101-109) with the `.get(_, "String")`
fallback of line 122. -/
def sqlalchemy_type_map (b : String) : String :=
  if b = "VARCHAR" then "String"
  else if b = "INTEGER" then "BigInteger"
  else if b = "DATE" then "Date"
  else if b = "TIMESTAMP WITH TIME ZONE" then "DateTime"
  else if b = "DECIMAL" then "Numeric"
  else if b = "BIGINT" then "BigInteger"
  else if b = "BOOLEAN" then "Boolean"
  else "String"

/-- The `col_parts` list of `generate_sqlalchemy_model` (source lines
124-141).  Parameters are attached exactly when `params` is truthy and the
mapped type is `String` or `Numeric` (the two branches of lines 127-130
append the identical text). -/
def col_parts (c : ColumnDef) : List String :=
  let r := resolve_ddl c.type
  let sa := sqlalchemy_type_map r.1
  let first :=
    match r.2 with
    | some ps =>
      if ps.data ≠ [] ∧ (sa = "String" ∨ sa = "Numeric") then
        "Column(" ++ sa ++ "(" ++ ps ++ ")"
      else "Column(" ++ sa
    | none => "Column(" ++ sa
  first ::
    ((if c.primary_key then ["primary_key=True"] else []) ++
     (if !c.nullable then ["nullable=False"] else []) ++
     (if c.default = some "CURRENT_TIMESTAMP" then ["default=func.now()"]
      else if hasDefault c then ["default=" ++ c.default.getD ""] else []))

/-- The first entry of `col_parts` (source lines 125-130), in isolation:
`Column(<sa_type>` with `(<params>)` attached when `params` is truthy and
the mapped type is `String` or `Numeric`. -/
def colFirst (c : ColumnDef) : String :=
  match (resolve_ddl c.type).2 with
  | some ps =>
    if ps.data ≠ [] ∧ (sqlalchemy_type_map (resolve_ddl c.type).1 = "String" ∨
        sqlalchemy_type_map (resolve_ddl c.type).1 = "Numeric") then
      "Column(" ++ sqlalchemy_type_map (resolve_ddl c.type).1 ++ "(" ++ ps ++ ")"
    else "Column(" ++ sqlalchemy_type_map (resolve_ddl c.type).1
  | none => "Column(" ++ sqlalchemy_type_map (resolve_ddl c.type).1

/-- One SQLAlchemy column line (source lines 143-147). -/
def modelColLine (p : String × ColumnDef) : String :=
  "    " ++ p.1 ++ " = " ++ (pyJoin ", " (col_parts p.2) ++ ")") ++
  "  # " ++ p.2.description.getD ""

/-- The seven lines every per-table model starts with (source lines 82-90). -/
def model_header_lines : List String :=
  ["from sqlalchemy import Column, String, Date, DateTime, Numeric, BigInteger, Boolean",
   "from sqlalchemy.ext.declarative import declarative_base",
   "from sqlalchemy.sql import func",
   "",
   "Base = declarative_base()",
   "",
   ""]

/-- The `lines` list built by `generate_sqlalchemy_model` (source lines
81-147). -/
def model_lines (tn : String) (td : TableDef) : List String :=
  model_header_lines ++
  ["class " ++ className tn ++ "(Base):",
   "    \"\"\"",
   "    " ++ td.description.getD ("SQLAlchemy model for " ++ tn ++ " table"),
   "    \"\"\"",
   "    __tablename__ = \"" ++ tn ++ "\"",
   ""] ++
  td.columns.map modelColLine

/-- Source `generate_sqlalchemy_model` (lines 75-149). -/
def generate_sqlalchemy_model (tn : String) (td : TableDef) : String :=
  pyJoin "\n" (model_lines tn td)

/-- The primary-key column names of a table, in declaration order
(source line 181). -/
def pkCols (td : TableDef) : List String :=
  (td.columns.filter (fun p => p.2.primary_key)).map Prod.fst

/-- One DDL column line (source lines 169-178). -/
def ddlColLine (p : String × ColumnDef) : String :=
  "    " ++ p.1 ++ " " ++ p.2.type ++
  (if !p.2.nullable then " NOT NULL" else "") ++
  (if hasDefault p.2 then " DEFAULT " ++ p.2.default.getD "" else "")

/-- The `col_lines` list of one table in `generate_sql_migration`
(source lines 167-183): one line per column, then the primary-key clause
when at least one primary-key column exists. -/
def ddl_col_lines (td : TableDef) : List String :=
  td.columns.map ddlColLine ++
  (if pkCols td = [] then [] else ["    PRIMARY KEY (" ++ pyJoin ", " (pkCols td) ++ ")"])

/-- One index statement (source lines 190-195). -/
def indexLine (tn : String) (idx : IndexDef) : String :=
  "CREATE " ++ (if idx.unique then "UNIQUE INDEX" else "INDEX") ++ " IF NOT EXISTS " ++
  idx.name ++ " ON " ++ tn ++ " (" ++ pyJoin ", " idx.columns ++ ");"

/-- The migration lines contributed by one table (source lines 162-197).
Note that the joined column block is appended as a single element
(line 185 of the source). -/
def tableMigrationLines (p : String × TableDef) : List String :=
  ["-- Create table: " ++ p.1,
   "CREATE TABLE IF NOT EXISTS " ++ p.1 ++ " (",
   pyJoin ",\n" (ddl_col_lines p.2),
   ");", ""] ++
  p.2.indexes.map (indexLine p.1) ++ [""]

/-- The `lines` list built by `generate_sql_migration` (source lines
156-197).  `now` is the string produced by `datetime.now().isoformat()`
at line 159. -/
def migration_lines (s : Schema) (now : String) : List String :=
  ["-- Migration script generated from JSON schema",
   "-- Schema version: " ++ s.version.getD "unknown",
   "-- Generated at: " ++ now,
   ""] ++ (s.tables.map tableMigrationLines).flatten

/-- Source `generate_sql_migration` (lines 152-199). -/
def generate_sql_migration (s : Schema) (now : String) : String :=
  pyJoin "\n" (migration_lines s now)

/-- Model of `line.startswith(("from ", "import "))` (source line 247). -/
def isImportLine (l : String) : Bool :=
  List.isPrefixOf ("from ".data) l.data || List.isPrefixOf ("import ".data) l.data

/-- Model of `line.startswith("class ")` (source line 252). -/
def isClassLine (l : String) : Bool :=
  List.isPrefixOf ("class ".data) l.data

/-- The import lines of a per-table model as extracted by `main`
(source lines 246-248). -/
def extract_imports (code : String) : List String :=
  (strLines code).filter isImportLine

/-- The class section extraction of `main` (source lines 250-254):
everything from the first line starting with `class ` to the end.  The
source computes the first such index with `next(...)` (raising if absent)
and joins `lines[class_start:]`; dropping the longest prefix of
non-class lines is the same whenever such a line exists, which is proved
below. -/
def class_section (code : String) : String :=
  pyJoin "\n" ((strLines code).dropWhile (fun l => !isClassLine l))

/-- The accumulated `sorted(all_imports)` of `main` (source lines 240-248,
258): the union over all tables of their models' import lines,
deduplicated and sorted. -/
def combinedImportLines (s : Schema) : List String :=
  sortDedup ((s.tables.map (fun p => extract_imports (generate_sqlalchemy_model p.1 p.2))).flatten)

/-- The combined `models.py` module built by `main` (source lines 239-261). -/
def combined_models (s : Schema) : String :=
  pyJoin "\n" (combinedImportLines s) ++ "\n\nBase = declarative_base()\n\n" ++
  pyJoin "\n\n\n" (s.tables.map (fun p => class_section (generate_sqlalchemy_model p.1 p.2)))

/-- The file contents one generation run writes (source lines 220-264):
per-table dataclass and model artifacts, the migration script and the
combined module. -/
structure GenOutputs where
  dataclasses : List (String × String)
  models : List (String × String)
  migration : String
  combined : String
deriving DecidableEq

def generate_outputs (s : Schema) (now : String) : GenOutputs :=
  { dataclasses := s.tables.map (fun p => (p.1 ++ "_dataclass.py", generate_dataclass p.1 p.2))
    models := s.tables.map (fun p => (p.1 ++ "_model.py", generate_sqlalchemy_model p.1 p.2))
    migration := generate_sql_migration s now
    combined := combined_models s }

/-- The load-failure taxonomy of the spec (§7): the schema file is absent,
or its content does not parse.  In the source these surface as the
exceptions of `open` and `json.load` inside `load_schema`
(source lines 16-19). -/
inductive SchemaLoadError
  | fileMissing
  | parseError
deriving DecidableEq

/-- Source `load_schema` (lines 16-19).  The file system is modelled by
`file : Option String` (the file's content when it exists) and the JSON
parser by `parseJson` (returning `none` on malformed content). -/
def load_schema (parseJson : String → Option Schema) (file : Option String) :
    Except SchemaLoadError Schema :=
  match file with
  | none => .error .fileMissing
  | some content =>
    match parseJson content with
    | none => .error .parseError
    | some s => .ok s

/-- File-system effects of `main`, in program order. -/
inductive FsEvent
  | mkdirEvent (dir : String)
  | writeEvent (path : String) (content : String)
deriving DecidableEq

/-- Source `main` (lines 202-272): load the schema, then create the output
directory, then write the per-table artifacts, the migration script and
the combined module.  A load failure propagates (nothing catches it), so
no event is produced. -/
def runGenerator (parseJson : String → Option Schema) (file : Option String)
    (now : String) (outputDir : String) : Except SchemaLoadError (List FsEvent) :=
  match load_schema parseJson file with
  | .error e => .error e
  | .ok s =>
    let o := generate_outputs s now
    .ok (FsEvent.mkdirEvent outputDir ::
      (s.tables.map (fun p =>
        [FsEvent.writeEvent (outputDir ++ "/" ++ p.1 ++ "_dataclass.py") (generate_dataclass p.1 p.2),
         FsEvent.writeEvent (outputDir ++ "/" ++ p.1 ++ "_model.py") (generate_sqlalchemy_model p.1 p.2)])).flatten ++
      [FsEvent.writeEvent (outputDir ++ "/migration.sql") o.migration,
       FsEvent.writeEvent (outputDir ++ "/models.py") o.combined])

/-! ## Auxiliary predicates and concrete inputs used by the claims -/

/-- The string contains no newline character.  The well-formedness
hypothesis under which line-level claims are stated: a schema whose
names, types, defaults or descriptions embed raw newlines would splice
text across lines of the generated artifacts. -/
def noNL (s : String) : Prop := '\n' ∉ s.data

instance (s : String) : Decidable (noNL s) :=
  inferInstanceAs (Decidable ('\n' ∉ s.data))

/-- All strings of a table that reach the model emitter are newline-free
(including the derived class name). -/
def tableNoNL (tn : String) (td : TableDef) : Prop :=
  noNL tn ∧ noNL (className tn) ∧
  noNL (td.description.getD ("SQLAlchemy model for " ++ tn ++ " table")) ∧
  ∀ p ∈ td.columns,
    noNL p.1 ∧ noNL p.2.type ∧ noNL (p.2.description.getD "") ∧ noNL (p.2.default.getD "")

instance (tn : String) (td : TableDef) : Decidable (tableNoNL tn td) := by
  unfold tableNoNL
  infer_instance

def schemaNoNL (s : Schema) : Prop := ∀ p ∈ s.tables, tableNoNL p.1 p.2

instance (s : Schema) : Decidable (schemaNoNL s) := by
  unfold schemaNoNL
  infer_instance

/-- Python's string order as a relation (for sortedness statements). -/
def strLe (a b : String) : Prop := lexLe a.data b.data = true

/-- A DDL line that opens a primary-key clause. -/
def isPkClauseLine (l : String) : Bool :=
  List.isPrefixOf ("    PRIMARY KEY (").data l.data

/-- The class-declaration line of a table's model. -/
def modelClassLine (tn : String) : String := "class " ++ className tn ++ "(Base):"

/-- The lines of a table's model that follow its class-declaration line. -/
def modelTailLines (tn : String) (td : TableDef) : List String :=
  ["    \"\"\"",
   "    " ++ td.description.getD ("SQLAlchemy model for " ++ tn ++ " table"),
   "    \"\"\"",
   "    __tablename__ = \"" ++ tn ++ "\"",
   ""] ++
  td.columns.map modelColLine

/-- The `id` column of the §8 scenario table. -/
def idColumn : ColumnDef :=
  { type := "INTEGER", python_type := "int", primary_key := true, nullable := false }

/-- The `name` column of the §8 scenario table. -/
def varchar50Column : ColumnDef :=
  { type := "VARCHAR(50)", python_type := "str", nullable := false }

/-- The `test_table` scenario of spec §8 (also the fixture of
`tests/test_schema_generator.py`). -/
def scenarioTable : TableDef :=
  { description := some "Test table"
    columns :=
      [("id", { type := "INTEGER", python_type := "int", primary_key := true, nullable := false }),
       ("name", { type := "VARCHAR(50)", python_type := "str", nullable := false }),
       ("price", { type := "DECIMAL(10,2)", python_type := "Decimal", nullable := true })]
    indexes := [] }

def scenarioSchema : Schema :=
  { version := some "1.0.0", tables := [("test_table", scenarioTable)] }

/-- A table declaring an optional (nullable, non-key) column before a
required (primary-key) column. -/
def optionalFirstTable : TableDef :=
  { columns :=
      [("note", { type := "VARCHAR(10)", python_type := "str" }),
       ("id", { type := "INTEGER", python_type := "int", primary_key := true, nullable := false })] }

/-- A column whose ddl type carries one parameter but whose base maps to
neither the sized-string nor the numeric constructor. -/
def intParamColumn : ColumnDef := { type := "INTEGER(11)", python_type := "int" }

/-! ## Infrastructure lemmas about the string primitives -/

theorem noNL_append {a b : String} : noNL (a ++ b) ↔ noNL a ∧ noNL b := by
  simp [noNL, String.data_append, not_or]

theorem splitOnChar_ne_nil (c : Char) (l : List Char) : splitOnChar c l ≠ [] := by
  induction l with
  | nil => simp [splitOnChar]
  | cons x xs ih =>
    simp only [splitOnChar]
    by_cases h : x = c
    · simp [h]
    · simp only [if_neg h]
      cases hr : splitOnChar c xs with
      | nil => simp
      | cons a t => simp

theorem splitOnChar_cons_of_ne {c x : Char} (xs : List Char) (h : x ≠ c) :
    splitOnChar c (x :: xs) =
      (x :: (splitOnChar c xs).headI) :: (splitOnChar c xs).tail := by
  simp only [splitOnChar, if_neg h]
  cases hr : splitOnChar c xs with
  | nil => exact absurd hr (splitOnChar_ne_nil c xs)
  | cons a t => simp [List.headI]

theorem splitOnChar_append_cons (c : Char) (X Y : List Char) :
    splitOnChar c (X ++ c :: Y) = splitOnChar c X ++ splitOnChar c Y := by
  induction X with
  | nil => simp [splitOnChar]
  | cons x xs ih =>
    by_cases h : x = c
    · subst h
      rw [List.cons_append]
      simp [splitOnChar, ih]
    · rw [List.cons_append, splitOnChar_cons_of_ne _ h, splitOnChar_cons_of_ne _ h, ih]
      cases hr : splitOnChar c xs with
      | nil => exact absurd hr (splitOnChar_ne_nil c xs)
      | cons a t => simp [List.headI]

theorem splitOnChar_of_not_mem {c : Char} {l : List Char} (h : c ∉ l) :
    splitOnChar c l = [l] := by
  induction l with
  | nil => rfl
  | cons x xs ih =>
    have hx : x ≠ c := fun he => h (he ▸ List.mem_cons_self x xs)
    have hxs : c ∉ xs := fun hm => h (List.mem_cons_of_mem x hm)
    rw [splitOnChar_cons_of_ne _ hx, ih hxs]
    simp [List.headI]

theorem mem_of_mem_splitOnChar {c x : Char} {l : List Char} {p : List Char}
    (hp : p ∈ splitOnChar c l) (hx : x ∈ p) : x ∈ l := by
  induction l generalizing p with
  | nil =>
    simp [splitOnChar] at hp
    subst hp
    exact absurd hx (List.not_mem_nil x)
  | cons y ys ih =>
    by_cases hy : y = c
    · subst hy
      have he : splitOnChar y (y :: ys) = [] :: splitOnChar y ys := by
        simp [splitOnChar]
      rw [he, List.mem_cons] at hp
      rcases hp with h1 | h1
      · subst h1; exact absurd hx (List.not_mem_nil x)
      · exact List.mem_cons_of_mem y (ih h1 hx)
    · rw [splitOnChar_cons_of_ne _ hy, List.mem_cons] at hp
      cases hr : splitOnChar c ys with
      | nil => exact absurd hr (splitOnChar_ne_nil c ys)
      | cons a t =>
        rw [hr] at hp
        simp only [List.headI, List.tail_cons] at hp
        rcases hp with h1 | h1
        · subst h1
          rcases List.mem_cons.mp hx with h2 | h2
          · exact h2 ▸ List.mem_cons_self y ys
          · exact List.mem_cons_of_mem y (ih (hr ▸ List.mem_cons_self a t) h2)
        · exact List.mem_cons_of_mem y (ih (hr ▸ List.mem_cons_of_mem a h1) hx)

theorem mem_of_mem_rstripRParen {x : Char} {l : List Char}
    (hx : x ∈ rstripRParen l) : x ∈ l := by
  have h2 : List.Sublist (l.reverse.dropWhile (fun c => c = ')')) l.reverse :=
    List.dropWhile_sublist _
  have h3 := List.Sublist.reverse h2
  rw [List.reverse_reverse] at h3
  exact h3.subset hx

theorem dropWhile_eq_self_of_all {P : Char → Bool} {l : List Char}
    (h : ∀ x ∈ l, P x = false) : l.dropWhile P = l := by
  cases l with
  | nil => rfl
  | cons x xs =>
    rw [List.dropWhile_cons_of_neg]
    simp [h x (List.mem_cons_self x xs)]

theorem strLines_of_noNL {x : String} (h : noNL x) : strLines x = [x] := by
  simp [strLines, splitOnChar_of_not_mem h]

theorem strLines_glue (X Y : String) :
    strLines (X ++ "\n" ++ Y) = strLines X ++ strLines Y := by
  have hn : ("\n" : String).data = ['\n'] := rfl
  have hd : (X ++ "\n" ++ Y).data = X.data ++ '\n' :: Y.data := by
    simp [String.data_append, hn]
  simp [strLines, hd, splitOnChar_append_cons]

theorem pyJoin_cons_cons (sep x y : String) (xs : List String) :
    pyJoin sep (x :: y :: xs) = x ++ sep ++ pyJoin sep (y :: xs) := rfl

theorem strLines_pyJoin {L : List String} (h : ∀ l ∈ L, noNL l) (hL : L ≠ []) :
    strLines (pyJoin "\n" L) = L := by
  induction L with
  | nil => exact absurd rfl hL
  | cons x xs ih =>
    cases xs with
    | nil => exact strLines_of_noNL (h x (List.mem_cons_self x []))
    | cons y ys =>
      rw [pyJoin_cons_cons, strLines_glue,
        strLines_of_noNL (h x (List.mem_cons_self x (y :: ys))),
        ih (fun l hl => h l (List.mem_cons_of_mem x hl)) (by simp)]
      rfl

theorem pyJoin_append_of_ne_nil (sep : String) {A B : List String}
    (hA : A ≠ []) (hB : B ≠ []) :
    pyJoin sep (A ++ B) = pyJoin sep A ++ sep ++ pyJoin sep B := by
  induction A with
  | nil => exact absurd rfl hA
  | cons x xs ih =>
    cases xs with
    | nil =>
      cases B with
      | nil => exact absurd rfl hB
      | cons b bs => rfl
    | cons y ys =>
      have h1 : (y :: ys : List String) ≠ [] := by simp
      calc pyJoin sep ((x :: y :: ys) ++ B)
          = x ++ sep ++ pyJoin sep ((y :: ys) ++ B) := rfl
        _ = x ++ sep ++ (pyJoin sep (y :: ys) ++ sep ++ pyJoin sep B) := by
            rw [ih h1]
        _ = pyJoin sep (x :: y :: ys) ++ sep ++ pyJoin sep B := by
            rw [pyJoin_cons_cons]
            simp [String.append_assoc]

theorem pyJoin_mem {x : String} {L : List String} (h : x ∈ L) (sep : String) :
    ∃ A B, pyJoin sep L = A ++ x ++ B := by
  induction L with
  | nil => exact absurd h (List.not_mem_nil x)
  | cons z zs ih =>
    cases zs with
    | nil =>
      rcases List.mem_cons.mp h with h1 | h1
      · exact ⟨"", "", by rw [h1]; rw [String.append_empty]; rfl⟩
      · exact absurd h1 (List.not_mem_nil x)
    | cons w ws =>
      rcases List.mem_cons.mp h with h1 | h1
      · subst h1
        exact ⟨"", sep ++ pyJoin sep (w :: ws), by
          rw [pyJoin_cons_cons]
          simp [String.append_assoc]⟩
      · obtain ⟨A, B, hAB⟩ := ih h1
        exact ⟨z ++ sep ++ A, B, by
          rw [pyJoin_cons_cons, hAB]
          simp [String.append_assoc]⟩

theorem lexLe_total (a b : List Char) : lexLe a b = true ∨ lexLe b a = true := by
  induction a generalizing b with
  | nil => left; rfl
  | cons x xs ih =>
    cases b with
    | nil => right; rfl
    | cons y ys =>
      by_cases h1 : x.toNat < y.toNat
      · left; simp [lexLe, h1]
      · by_cases h2 : y.toNat < x.toNat
        · right; simp [lexLe, h2]
        · rcases ih ys with h3 | h3
          · left; simp [lexLe, h1, h2, h3]
          · right; simp [lexLe, h1, h2, h3]

theorem lexLe_trans {a b c : List Char} (h1 : lexLe a b = true)
    (h2 : lexLe b c = true) : lexLe a c = true := by
  induction a generalizing b c with
  | nil => rfl
  | cons x xs ih =>
    cases b with
    | nil => exact absurd h1 (by simp [lexLe])
    | cons y ys =>
      cases c with
      | nil => exact absurd h2 (by simp [lexLe])
      | cons z zs =>
        simp only [lexLe] at h1 h2 ⊢
        by_cases hxy : x.toNat < y.toNat
        · by_cases hyz : y.toNat < z.toNat
          · have : x.toNat < z.toNat := Nat.lt_trans hxy hyz
            simp [this]
          · by_cases hzy : z.toNat < y.toNat
            · simp [hyz, hzy] at h2
            · have hyz2 : y.toNat = z.toNat := by omega
              have : x.toNat < z.toNat := by omega
              simp [this]
        · by_cases hyx : y.toNat < x.toNat
          · simp [hxy, hyx] at h1
          · have hxy2 : x.toNat = y.toNat := by omega
            rw [if_neg hxy, if_neg hyx] at h1
            by_cases hyz : y.toNat < z.toNat
            · have : x.toNat < z.toNat := by omega
              simp [this]
            · by_cases hzy : z.toNat < y.toNat
              · simp [hyz, hzy] at h2
              · rw [if_neg hyz, if_neg hzy] at h2
                have hxz : ¬ x.toNat < z.toNat := by omega
                have hzx : ¬ z.toNat < x.toNat := by omega
                rw [if_neg hxz, if_neg hzx]
                exact ih h1 h2

theorem strLe_trans {a b c : String} (h1 : strLe a b) (h2 : strLe b c) :
    strLe a c := lexLe_trans h1 h2

theorem mem_insertSorted {y x : String} {l : List String} :
    y ∈ insertSorted x l ↔ y = x ∨ y ∈ l := by
  induction l with
  | nil => simp [insertSorted]
  | cons z zs ih =>
    simp only [insertSorted]
    by_cases h : lexLe x.data z.data
    · simp [h]
    · rw [if_neg h]
      simp only [List.mem_cons, ih]
      tauto

theorem pairwise_insertSorted {x : String} {l : List String}
    (h : l.Pairwise strLe) : (insertSorted x l).Pairwise strLe := by
  induction l with
  | nil => simp [insertSorted]
  | cons z zs ih =>
    rw [List.pairwise_cons] at h
    obtain ⟨hz, hzs⟩ := h
    simp only [insertSorted]
    by_cases hc : lexLe x.data z.data
    · rw [if_pos hc]
      refine List.Pairwise.cons ?_ (List.Pairwise.cons hz hzs)
      intro w hw
      rcases List.mem_cons.mp hw with h1 | h1
      · exact h1 ▸ hc
      · exact strLe_trans hc (hz w h1)
    · rw [if_neg hc]
      refine List.Pairwise.cons ?_ (ih hzs)
      intro w hw
      rcases mem_insertSorted.mp hw with h1 | h1
      · rw [h1]
        have h2 := lexLe_total x.data z.data
        rcases h2 with h2 | h2
        · exact absurd h2 hc
        · exact h2
      · exact hz w h1

theorem nodup_insertSorted {x : String} {l : List String}
    (hx : x ∉ l) (h : l.Nodup) : (insertSorted x l).Nodup := by
  induction l with
  | nil => simp [insertSorted]
  | cons z zs ih =>
    rw [List.nodup_cons] at h
    obtain ⟨hz, hzs⟩ := h
    simp only [insertSorted]
    by_cases hc : lexLe x.data z.data
    · rw [if_pos hc]
      refine List.nodup_cons.mpr ⟨hx, List.nodup_cons.mpr ⟨hz, hzs⟩⟩
    · rw [if_neg hc]
      refine List.nodup_cons.mpr ⟨?_, ih (fun hm => hx (List.mem_cons_of_mem z hm)) hzs⟩
      intro hm
      rcases mem_insertSorted.mp hm with h1 | h1
      · exact hx (h1 ▸ List.mem_cons_self z zs)
      · exact hz h1

theorem mem_foldr_insertSorted {y : String} {l : List String} :
    y ∈ l.foldr insertSorted [] ↔ y ∈ l := by
  induction l with
  | nil => simp
  | cons z zs ih => simp [List.foldr_cons, mem_insertSorted, ih]

theorem mem_sortDedup {y : String} {l : List String} :
    y ∈ sortDedup l ↔ y ∈ l := by
  unfold sortDedup
  rw [mem_foldr_insertSorted, List.mem_dedup]

theorem pairwise_sortDedup (l : List String) : (sortDedup l).Pairwise strLe := by
  unfold sortDedup
  induction l.dedup with
  | nil => simp
  | cons z zs ih => exact pairwise_insertSorted ih

theorem nodup_foldr_insertSorted {d : List String} (h : d.Nodup) :
    (d.foldr insertSorted []).Nodup := by
  induction d with
  | nil => simp
  | cons z zs ih =>
    rw [List.nodup_cons] at h
    exact nodup_insertSorted (fun hm => h.1 (mem_foldr_insertSorted.mp hm)) (ih h.2)

theorem nodup_sortDedup (l : List String) : (sortDedup l).Nodup :=
  nodup_foldr_insertSorted l.nodup_dedup

/-! ## Line-classification lemmas -/

theorem head?_append_cons {s : String} (t : String) {c : Char} {cs : List Char}
    (h : s.data = c :: cs) : (s ++ t).data.head? = some c := by
  simp [String.data_append, h]

theorem head?_of_isPrefixOf {c : Char} {cs l : List Char} (h : (c :: cs) <+: l) :
    l.head? = some c := by
  cases l with
  | nil =>
    have := List.eq_nil_of_prefix_nil h
    exact absurd this (by simp)
  | cons a t =>
    rw [List.cons_prefix_cons] at h
    rw [h.1]
    rfl

theorem not_from_of_head {l : List Char} (h : l.head? ≠ some 'f') :
    List.isPrefixOf ("from " : String).data l = false := by
  rw [Bool.eq_false_iff]
  intro hc
  rw [ List.isPrefixOf_iff_prefix] at hc
  have hf : ("from " : String).data = 'f' :: ['r', 'o', 'm', ' '] := rfl
  rw [hf] at hc
  exact h (head?_of_isPrefixOf hc)

theorem not_import_of_head {l : List Char} (h : l.head? ≠ some 'i') :
    List.isPrefixOf ("import " : String).data l = false := by
  rw [Bool.eq_false_iff]
  intro hc
  rw [ List.isPrefixOf_iff_prefix] at hc
  have hf : ("import " : String).data = 'i' :: ['m', 'p', 'o', 'r', 't', ' '] := rfl
  rw [hf] at hc
  exact h (head?_of_isPrefixOf hc)

theorem isImportLine_false {l : String} (h1 : l.data.head? ≠ some 'f')
    (h2 : l.data.head? ≠ some 'i') : isImportLine l = false := by
  unfold isImportLine
  rw [not_from_of_head h1, not_import_of_head h2]
  rfl

theorem isClassLine_false {l : String} (h : l.data.head? ≠ some 'c') :
    isClassLine l = false := by
  unfold isClassLine
  rw [Bool.eq_false_iff]
  intro hc
  rw [ List.isPrefixOf_iff_prefix] at hc
  have hf : ("class " : String).data = 'c' :: ['l', 'a', 's', 's', ' '] := rfl
  rw [hf] at hc
  exact h (head?_of_isPrefixOf hc)

theorem isClassLine_append (x : String) : isClassLine ("class " ++ x) = true := by
  unfold isClassLine
  rw [ List.isPrefixOf_iff_prefix, String.data_append]
  exact List.prefix_append _ _

theorem modelClassLine_eq (tn : String) :
    modelClassLine tn = "class " ++ (className tn ++ "(Base):") := by
  unfold modelClassLine
  rw [String.append_assoc]

theorem isClassLine_modelClassLine (tn : String) :
    isClassLine (modelClassLine tn) = true := by
  rw [modelClassLine_eq]
  exact isClassLine_append _

theorem modelColLine_head (p : String × ColumnDef) :
    (modelColLine p).data.head? = some ' ' := by
  unfold modelColLine
  simp only [String.append_assoc]
  exact head?_append_cons _ rfl

/-! ## Newline-freeness of the model lines -/

theorem noNL_pyJoin {sep : String} {L : List String} (hs : noNL sep)
    (h : ∀ x ∈ L, noNL x) : noNL (pyJoin sep L) := by
  induction L with
  | nil => simp [pyJoin, noNL]
  | cons x xs ih =>
    cases xs with
    | nil => exact h x (List.mem_cons_self x [])
    | cons y ys =>
      rw [pyJoin_cons_cons]
      refine noNL_append.mpr ⟨noNL_append.mpr ⟨h x (List.mem_cons_self _ _), hs⟩, ?_⟩
      exact ih (fun l hl => h l (List.mem_cons_of_mem x hl))

theorem noNL_sqlalchemy_type_map (b : String) : noNL (sqlalchemy_type_map b) := by
  unfold sqlalchemy_type_map
  split_ifs <;> decide

theorem noNL_resolve_params {s ps : String} (h : (resolve_ddl s).2 = some ps)
    (hs : noNL s) : noNL ps := by
  unfold resolve_ddl at h
  cases hsp : splitOnChar '(' s.data with
  | nil => rw [hsp] at h; simp at h
  | cons b rest =>
    cases rest with
    | nil => rw [hsp] at h; simp at h
    | cons p t =>
      rw [hsp] at h
      simp only [Option.some.injEq] at h
      intro hmem
      rw [← h] at hmem
      have h1 : '\n' ∈ p := mem_of_mem_rstripRParen hmem
      have h2 : p ∈ splitOnChar '(' s.data := by
        rw [hsp]; exact List.mem_cons_of_mem b (List.mem_cons_self p t)
      exact hs (mem_of_mem_splitOnChar h2 h1)

theorem noNL_col_parts {c : ColumnDef} (ht : noNL c.type)
    (hd : noNL (c.default.getD "")) : ∀ x ∈ col_parts c, noNL x := by
  intro x hx
  unfold col_parts at hx
  rcases List.mem_cons.mp hx with h1 | h1
  · subst h1
    cases hr : (resolve_ddl c.type).2 with
    | none =>
      exact noNL_append.mpr ⟨by decide, noNL_sqlalchemy_type_map _⟩
    | some ps =>
      show noNL (if ps.data ≠ [] ∧ (sqlalchemy_type_map (resolve_ddl c.type).1 = "String" ∨
          sqlalchemy_type_map (resolve_ddl c.type).1 = "Numeric") then
          "Column(" ++ sqlalchemy_type_map (resolve_ddl c.type).1 ++ "(" ++ ps ++ ")"
        else "Column(" ++ sqlalchemy_type_map (resolve_ddl c.type).1)
      by_cases hc : ps.data ≠ [] ∧ (sqlalchemy_type_map (resolve_ddl c.type).1 = "String" ∨
          sqlalchemy_type_map (resolve_ddl c.type).1 = "Numeric")
      · rw [if_pos hc]
        refine noNL_append.mpr ⟨noNL_append.mpr ⟨noNL_append.mpr
          ⟨noNL_append.mpr ⟨by decide, noNL_sqlalchemy_type_map _⟩, by decide⟩,
          noNL_resolve_params hr ht⟩, by decide⟩
      · rw [if_neg hc]
        exact noNL_append.mpr ⟨by decide, noNL_sqlalchemy_type_map _⟩
  · rcases List.mem_append.mp h1 with h2 | h2
    · rcases List.mem_append.mp h2 with h3 | h3
      · by_cases hpk : c.primary_key
        · rw [if_pos hpk] at h3
          rcases List.mem_cons.mp h3 with h4 | h4
          · subst h4; decide
          · exact absurd h4 (List.not_mem_nil x)
        · rw [if_neg hpk] at h3
          exact absurd h3 (List.not_mem_nil x)
      · by_cases hnl : !c.nullable
        · rw [if_pos hnl] at h3
          rcases List.mem_cons.mp h3 with h4 | h4
          · subst h4; decide
          · exact absurd h4 (List.not_mem_nil x)
        · rw [if_neg hnl] at h3
          exact absurd h3 (List.not_mem_nil x)
    · by_cases hts : c.default = some "CURRENT_TIMESTAMP"
      · rw [if_pos hts] at h2
        rcases List.mem_cons.mp h2 with h4 | h4
        · subst h4; decide
        · exact absurd h4 (List.not_mem_nil x)
      · rw [if_neg hts] at h2
        by_cases hdf : hasDefault c
        · rw [if_pos hdf] at h2
          rcases List.mem_cons.mp h2 with h4 | h4
          · subst h4
            exact noNL_append.mpr ⟨by decide, hd⟩
          · exact absurd h4 (List.not_mem_nil x)
        · rw [if_neg hdf] at h2
          exact absurd h2 (List.not_mem_nil x)

theorem noNL_modelColLine {p : String × ColumnDef} (hn : noNL p.1)
    (ht : noNL p.2.type) (hds : noNL (p.2.description.getD ""))
    (hd : noNL (p.2.default.getD "")) : noNL (modelColLine p) := by
  unfold modelColLine
  refine noNL_append.mpr ⟨noNL_append.mpr ⟨noNL_append.mpr ⟨noNL_append.mpr
    ⟨noNL_append.mpr ⟨by decide, hn⟩, by decide⟩, ?_⟩, by decide⟩, hds⟩
  exact noNL_append.mpr ⟨noNL_pyJoin (by decide) (noNL_col_parts ht hd), by decide⟩

theorem noNL_model_lines {tn : String} {td : TableDef} (h : tableNoNL tn td) :
    ∀ l ∈ model_lines tn td, noNL l := by
  obtain ⟨htn, hcn, hdesc, hcols⟩ := h
  intro l hl
  unfold model_lines model_header_lines at hl
  simp only [List.cons_append, List.nil_append, List.mem_cons] at hl
  rcases hl with h | h | h | h | h | h | h | h | h | h | h | h | h | h
  · subst h; decide
  · subst h; decide
  · subst h; decide
  · subst h; decide
  · subst h; decide
  · subst h; decide
  · subst h; decide
  · subst h
    exact noNL_append.mpr ⟨noNL_append.mpr ⟨by decide, hcn⟩, by decide⟩
  · subst h; decide
  · subst h
    exact noNL_append.mpr ⟨by decide, hdesc⟩
  · subst h; decide
  · subst h
    exact noNL_append.mpr ⟨noNL_append.mpr ⟨by decide, htn⟩, by decide⟩
  · subst h; decide
  · rcases List.mem_map.mp h with ⟨p, hp, he⟩
    obtain ⟨hn, ht, hds, hd⟩ := hcols p hp
    exact he ▸ noNL_modelColLine hn ht hds hd

theorem strNe_of_head {a b : String} (h : a.data.head? ≠ b.data.head?) : a ≠ b :=
  fun he => h (by rw [he])

/-! ## Characterization of the per-table model artifact -/

theorem model_lines_eq (tn : String) (td : TableDef) :
    model_lines tn td = model_header_lines ++ modelClassLine tn :: modelTailLines tn td := by
  simp [model_lines, modelTailLines, modelClassLine]

theorem model_lines_ne_nil (tn : String) (td : TableDef) : model_lines tn td ≠ [] := by
  rw [model_lines_eq]
  simp [model_header_lines]

theorem strLines_model {tn : String} {td : TableDef} (h : tableNoNL tn td) :
    strLines (generate_sqlalchemy_model tn td) = model_lines tn td :=
  strLines_pyJoin (noNL_model_lines h) (model_lines_ne_nil tn td)

theorem modelTail_head (tn : String) (td : TableDef) :
    ∀ l ∈ modelTailLines tn td, l.data.head? = some ' ' ∨ l = "" := by
  intro l hl
  unfold modelTailLines at hl
  simp only [List.cons_append, List.nil_append, List.mem_cons] at hl
  rcases hl with h | h | h | h | h | h
  · subst h; left; rfl
  · subst h; left; exact head?_append_cons _ rfl
  · subst h; left; rfl
  · subst h
    left
    simp only [String.append_assoc]
    exact head?_append_cons _ rfl
  · subst h; right; rfl
  · rcases List.mem_map.mp h with ⟨p, hp, he⟩
    left
    exact he ▸ modelColLine_head p

theorem isImportLine_modelTail (tn : String) (td : TableDef) :
    ∀ l ∈ modelTailLines tn td, isImportLine l = false := by
  intro l hl
  rcases modelTail_head tn td l hl with h | h
  · exact isImportLine_false (by rw [h]; decide) (by rw [h]; decide)
  · subst h; decide

theorem isClassLine_modelTail (tn : String) (td : TableDef) :
    ∀ l ∈ modelTailLines tn td, isClassLine l = false := by
  intro l hl
  rcases modelTail_head tn td l hl with h | h
  · exact isClassLine_false (by rw [h]; decide)
  · subst h; decide

theorem ne_base_modelTail (tn : String) (td : TableDef) :
    ∀ l ∈ modelTailLines tn td, l ≠ "Base = declarative_base()" := by
  intro l hl
  rcases modelTail_head tn td l hl with h | h
  · exact strNe_of_head (by rw [h]; decide)
  · subst h; decide

theorem modelClassLine_head (tn : String) :
    (modelClassLine tn).data.head? = some 'c' := by
  rw [modelClassLine_eq]
  exact head?_append_cons _ rfl

theorem extract_imports_model {tn : String} {td : TableDef} (h : tableNoNL tn td) :
    extract_imports (generate_sqlalchemy_model tn td) =
      ["from sqlalchemy import Column, String, Date, DateTime, Numeric, BigInteger, Boolean",
       "from sqlalchemy.ext.declarative import declarative_base",
       "from sqlalchemy.sql import func"] := by
  unfold extract_imports
  rw [strLines_model h, model_lines_eq, List.filter_append]
  have h1 : model_header_lines.filter isImportLine =
      ["from sqlalchemy import Column, String, Date, DateTime, Numeric, BigInteger, Boolean",
       "from sqlalchemy.ext.declarative import declarative_base",
       "from sqlalchemy.sql import func"] := by decide
  have h2 : (modelClassLine tn :: modelTailLines tn td).filter isImportLine = [] := by
    rw [List.filter_eq_nil_iff]
    intro l hl
    rcases List.mem_cons.mp hl with h3 | h3
    · subst h3
      simp [isImportLine_false (by rw [modelClassLine_head tn]; decide)
        (by rw [modelClassLine_head tn]; decide)]
    · simp [isImportLine_modelTail tn td l h3]
  rw [h1, h2, List.append_nil]

theorem dropWhile_model_lines (tn : String) (td : TableDef) :
    (model_lines tn td).dropWhile (fun l => !isClassLine l) =
      modelClassLine tn :: modelTailLines tn td := by
  rw [model_lines_eq]
  unfold model_header_lines
  rw [List.cons_append, List.dropWhile_cons_of_pos (by decide)]
  rw [List.cons_append, List.dropWhile_cons_of_pos (by decide)]
  rw [List.cons_append, List.dropWhile_cons_of_pos (by decide)]
  rw [List.cons_append, List.dropWhile_cons_of_pos (by decide)]
  rw [List.cons_append, List.dropWhile_cons_of_pos (by decide)]
  rw [List.cons_append, List.dropWhile_cons_of_pos (by decide)]
  rw [List.cons_append, List.dropWhile_cons_of_pos (by decide)]
  rw [List.nil_append]
  rw [List.dropWhile_cons_of_neg (by simp [isClassLine_modelClassLine])]

theorem class_section_model {tn : String} {td : TableDef} (h : tableNoNL tn td) :
    class_section (generate_sqlalchemy_model tn td) =
      pyJoin "\n" (modelClassLine tn :: modelTailLines tn td) := by
  unfold class_section
  rw [strLines_model h, dropWhile_model_lines]

theorem model_split {tn : String} {td : TableDef} (h : tableNoNL tn td) :
    generate_sqlalchemy_model tn td =
      pyJoin "\n" model_header_lines ++ "\n" ++
        class_section (generate_sqlalchemy_model tn td) := by
  rw [class_section_model h]
  unfold generate_sqlalchemy_model
  rw [model_lines_eq]
  exact pyJoin_append_of_ne_nil "\n" (by simp [model_header_lines]) (by simp)

/-! ## Characterization of the combined module -/

theorem combined_imports_subset {s : Schema} (h : schemaNoNL s) :
    ∀ l ∈ combinedImportLines s,
      l ∈ (["from sqlalchemy import Column, String, Date, DateTime, Numeric, BigInteger, Boolean",
            "from sqlalchemy.ext.declarative import declarative_base",
            "from sqlalchemy.sql import func"] : List String) := by
  intro l hl
  unfold combinedImportLines at hl
  rw [mem_sortDedup] at hl
  rcases List.mem_flatten.mp hl with ⟨block, hb, hlb⟩
  rcases List.mem_map.mp hb with ⟨p, hp, he⟩
  rw [← he, extract_imports_model (h p hp)] at hlb
  exact hlb

theorem strLines_registry_sep (X Y : String) :
    strLines (X ++ "\n\nBase = declarative_base()\n\n" ++ Y) =
      strLines X ++ ["", "Base = declarative_base()", ""] ++ strLines Y := by
  unfold strLines
  have hmid : ("\n\nBase = declarative_base()\n\n" : String).data =
      '\n' :: '\n' :: (("Base = declarative_base()" : String).data ++ ['\n', '\n']) := by
    decide
  have hd : (X ++ "\n\nBase = declarative_base()\n\n" ++ Y).data =
      X.data ++ '\n' :: ('\n' :: (("Base = declarative_base()" : String).data ++
        '\n' :: ('\n' :: Y.data))) := by
    simp [String.data_append, hmid, List.append_assoc]
  rw [hd, splitOnChar_append_cons]
  have h2 : splitOnChar '\n' ('\n' :: (("Base = declarative_base()" : String).data ++
      '\n' :: ('\n' :: Y.data))) =
      [] :: splitOnChar '\n' (("Base = declarative_base()" : String).data ++
        '\n' :: ('\n' :: Y.data)) := by
    simp [splitOnChar]
  rw [h2, splitOnChar_append_cons]
  have h3 : splitOnChar '\n' (("Base = declarative_base()" : String).data) =
      [("Base = declarative_base()" : String).data] :=
    splitOnChar_of_not_mem (by decide)
  have h4 : splitOnChar '\n' ('\n' :: Y.data) = [] :: splitOnChar '\n' Y.data := by
    simp [splitOnChar]
  rw [h3, h4]
  simp

theorem strLines_combined (s : Schema) :
    strLines (combined_models s) =
      strLines (pyJoin "\n" (combinedImportLines s)) ++
      ["", "Base = declarative_base()", ""] ++
      strLines (pyJoin "\n\n\n"
        (s.tables.map (fun p => class_section (generate_sqlalchemy_model p.1 p.2)))) := by
  unfold combined_models
  exact strLines_registry_sep _ _

theorem strLines_pyJoin3_cons (x y : String) (xs : List String) :
    strLines (pyJoin "\n\n\n" (x :: y :: xs)) =
      strLines x ++ ["", ""] ++ strLines (pyJoin "\n\n\n" (y :: xs)) := by
  rw [pyJoin_cons_cons]
  unfold strLines
  have hd : (x ++ "\n\n\n" ++ pyJoin "\n\n\n" (y :: xs)).data =
      x.data ++ '\n' :: ('\n' :: ('\n' :: (pyJoin "\n\n\n" (y :: xs)).data)) := by
    have h1 : ("\n\n\n" : String).data = ['\n', '\n', '\n'] := rfl
    simp [String.data_append, h1]
  rw [hd, splitOnChar_append_cons]
  have h2 : ∀ R : List Char, splitOnChar '\n' ('\n' :: R) = [] :: splitOnChar '\n' R := by
    intro R
    simp [splitOnChar]
  rw [h2, h2]
  simp

theorem count_base_pyJoin3 {L : List String}
    (h : ∀ x ∈ L, (strLines x).count "Base = declarative_base()" = 0) :
    (strLines (pyJoin "\n\n\n" L)).count "Base = declarative_base()" = 0 := by
  induction L with
  | nil => decide
  | cons x xs ih =>
    cases xs with
    | nil => exact h x (List.mem_cons_self x [])
    | cons y ys =>
      rw [strLines_pyJoin3_cons, List.count_append, List.count_append]
      rw [h x (List.mem_cons_self _ _), ih (fun l hl => h l (List.mem_cons_of_mem x hl))]
      decide

theorem filter_class_pyJoin3 {L : List String} :
    (strLines (pyJoin "\n\n\n" L)).filter isClassLine =
      (L.map (fun x => (strLines x).filter isClassLine)).flatten := by
  induction L with
  | nil => decide
  | cons x xs ih =>
    cases xs with
    | nil => simp [pyJoin]
    | cons y ys =>
      rw [strLines_pyJoin3_cons, List.filter_append, List.filter_append, ih]
      simp
      decide

theorem strLines_class_section {tn : String} {td : TableDef} (h : tableNoNL tn td) :
    strLines (class_section (generate_sqlalchemy_model tn td)) =
      modelClassLine tn :: modelTailLines tn td := by
  rw [class_section_model h]
  refine strLines_pyJoin ?_ (by simp)
  intro l hl
  have hm : l ∈ model_lines tn td := by
    rw [model_lines_eq]
    exact List.mem_append_right _ hl
  exact noNL_model_lines h l hm

theorem count_base_class_section {tn : String} {td : TableDef} (h : tableNoNL tn td) :
    (strLines (class_section (generate_sqlalchemy_model tn td))).count
      "Base = declarative_base()" = 0 := by
  rw [strLines_class_section h, List.count_eq_zero]
  intro hmem
  rcases List.mem_cons.mp hmem with h1 | h1
  · exact strNe_of_head (a := modelClassLine tn) (by rw [modelClassLine_head]; decide) h1.symm
  · exact ne_base_modelTail tn td _ h1 rfl

theorem filter_class_class_section {tn : String} {td : TableDef} (h : tableNoNL tn td) :
    (strLines (class_section (generate_sqlalchemy_model tn td))).filter isClassLine =
      [modelClassLine tn] := by
  rw [strLines_class_section h]
  rw [List.filter_cons_of_pos (by rw [isClassLine_modelClassLine])]
  rw [List.filter_eq_nil_iff.mpr (fun l hl => by simp [isClassLine_modelTail tn td l hl])]

theorem noNL_combinedImportLines {s : Schema} (h : schemaNoNL s) :
    ∀ l ∈ combinedImportLines s, noNL l := by
  intro l hl
  have h2 := combined_imports_subset h l hl
  have h3 : ∀ x ∈ (["from sqlalchemy import Column, String, Date, DateTime, Numeric, BigInteger, Boolean",
      "from sqlalchemy.ext.declarative import declarative_base",
      "from sqlalchemy.sql import func"] : List String), noNL x := by decide
  exact h3 l h2

theorem count_base_imports_part {s : Schema} (h : schemaNoNL s) :
    (strLines (pyJoin "\n" (combinedImportLines s))).count "Base = declarative_base()" = 0 := by
  by_cases hc : combinedImportLines s = []
  · rw [hc]; decide
  · rw [strLines_pyJoin (noNL_combinedImportLines h) hc]
    rw [List.count_eq_zero]
    intro hmem
    have h2 := combined_imports_subset h _ hmem
    have h3 : ("Base = declarative_base()" : String) ∉
        (["from sqlalchemy import Column, String, Date, DateTime, Numeric, BigInteger, Boolean",
          "from sqlalchemy.ext.declarative import declarative_base",
          "from sqlalchemy.sql import func"] : List String) := by decide
    exact h3 h2

theorem filter_class_imports_part {s : Schema} (h : schemaNoNL s) :
    (strLines (pyJoin "\n" (combinedImportLines s))).filter isClassLine = [] := by
  by_cases hc : combinedImportLines s = []
  · rw [hc]; decide
  · rw [strLines_pyJoin (noNL_combinedImportLines h) hc]
    rw [List.filter_eq_nil_iff]
    intro l hl
    have h2 := combined_imports_subset h l hl
    have h3 : ∀ x ∈ (["from sqlalchemy import Column, String, Date, DateTime, Numeric, BigInteger, Boolean",
        "from sqlalchemy.ext.declarative import declarative_base",
        "from sqlalchemy.sql import func"] : List String), isClassLine x = false := by decide
    simp [h3 l h2]

/-! ## Primary-key clause helpers -/

theorem prefix_cancel_left {A x y : List Char} (h : A ++ x <+: A ++ y) : x <+: y := by
  obtain ⟨t, ht⟩ := h
  rw [List.append_assoc] at ht
  exact ⟨t, List.append_cancel_left ht⟩

theorem append_left_cancel_str {A x y : String} (h : A ++ x = A ++ y) : x = y := by
  apply String.ext
  have h2 := congrArg String.data h
  rw [String.data_append, String.data_append] at h2
  exact List.append_cancel_left h2

theorem pk_marker_forces {n : String} {R : List Char}
    (h : ("PRIMARY KEY (" : String).data <+: (n.data ++ ' ' :: R)) :
    ("PRIMARY" : String).data <+: n.data := by
  by_cases hlen : 7 ≤ n.data.length
  · have h2 := List.prefix_iff_eq_take.mp h
    have h3 : (("PRIMARY KEY (" : String).data).length = 13 := by decide
    rw [h3] at h2
    have h4 : ("PRIMARY" : String).data = (("PRIMARY KEY (" : String).data).take 7 := by
      decide
    rw [h2, List.take_take] at h4
    have h5 : min 7 13 = 7 := by decide
    rw [h5, List.take_append_of_le_length hlen] at h4
    rw [h4]
    exact List.take_prefix 7 n.data
  · exfalso
    push_neg at hlen
    have h3 : (("PRIMARY KEY (" : String).data).length = 13 := by decide
    have hb : n.data.length < (("PRIMARY KEY (" : String).data).length := by omega
    have hg := List.IsPrefix.getElem h hb
    have hlt : n.data.length < (n.data ++ ' ' :: R).length :=
      Nat.lt_of_lt_of_le hb h.length_le
    have hq0 : (n.data ++ ' ' :: R)[n.data.length]? = some ' ' := by
      rw [List.getElem?_append_right (Nat.le_refl _)]
      simp
    have hq : (("PRIMARY KEY (" : String).data)[n.data.length]? = some ' ' := by
      rw [List.getElem?_eq_getElem hb, hg, ← List.getElem?_eq_getElem hlt, hq0]
    have ht : ((("PRIMARY KEY (" : String).data).take 7)[n.data.length]? = some ' ' := by
      rw [List.getElem?_take_of_lt hlen, hq]
    have hmem : (' ' : Char) ∈ (("PRIMARY KEY (" : String).data).take 7 :=
      List.getElem?_mem ht
    exact absurd hmem (by decide)

theorem ddlColLine_not_pk {p : String × ColumnDef}
    (h : ¬ ("PRIMARY" : String).data <+: p.1.data) :
    isPkClauseLine (ddlColLine p) = false := by
  rw [Bool.eq_false_iff]
  intro hc
  unfold isPkClauseLine at hc
  rw [ List.isPrefixOf_iff_prefix] at hc
  have hpat : ("    PRIMARY KEY (" : String).data =
      ("    " : String).data ++ ("PRIMARY KEY (" : String).data := by decide
  have hline : (ddlColLine p).data =
      ("    " : String).data ++ (p.1.data ++ ' ' ::
        ((p.2.type ++ (if !p.2.nullable then " NOT NULL" else "") ++
          (if hasDefault p.2 then " DEFAULT " ++ p.2.default.getD "" else "")).data)) := by
    unfold ddlColLine
    simp [String.data_append, List.append_assoc]
  rw [hpat, hline] at hc
  exact h (pk_marker_forces (prefix_cancel_left hc))

theorem isPkClauseLine_clause (X : String) :
    isPkClauseLine ("    PRIMARY KEY (" ++ X ++ ")") = true := by
  unfold isPkClauseLine
  rw [ List.isPrefixOf_iff_prefix]
  have hd : ("    PRIMARY KEY (" ++ X ++ ")").data =
      ("    PRIMARY KEY (" : String).data ++ (X.data ++ (")" : String).data) := by
    simp [String.data_append]
  rw [hd]
  exact List.prefix_append _ _

/-! ## Claims -/

/-- C5: for every table with at least one `primary_key` column, the
`CREATE TABLE` body contains exactly one `PRIMARY KEY (...)` clause line,
it is the last line, and it lists exactly the primary-key columns in
declaration order; a table without primary-key columns gets no such line.
(Hypothesis: no column name itself starts with `PRIMARY`, which would
spoof the clause marker inside an ordinary column line.) -/
theorem claim_C5_pk_clause (td : TableDef)
    (hname : ∀ p ∈ td.columns, ¬ ("PRIMARY" : String).data <+: p.1.data) :
    ((ddl_col_lines td).countP isPkClauseLine = if pkCols td = [] then 0 else 1)
    ∧ (pkCols td ≠ [] →
        (ddl_col_lines td).getLast? =
          some ("    PRIMARY KEY (" ++ pyJoin ", " (pkCols td) ++ ")"))
    ∧ pkCols td = (td.columns.filter (fun p => p.2.primary_key)).map Prod.fst := by
  have hz : (td.columns.map ddlColLine).countP isPkClauseLine = 0 := by
    rw [List.countP_eq_zero]
    intro l hl
    rcases List.mem_map.mp hl with ⟨p, hp, he⟩
    simp [← he, ddlColLine_not_pk (hname p hp)]
  refine ⟨?_, ?_, rfl⟩
  · unfold ddl_col_lines
    by_cases hc : pkCols td = []
    · rw [if_pos hc, if_pos hc, List.append_nil]
      exact hz
    · rw [if_neg hc, if_neg hc, List.countP_append, hz]
      simp [isPkClauseLine_clause]
  · intro hc
    unfold ddl_col_lines
    rw [if_neg hc]
    exact List.getLast?_concat _

/-- C5 witness: the §8 scenario table has exactly one primary-key clause
line, listing `id`. -/
theorem claim_C5_pk_clause_witness :
    (∀ p ∈ scenarioTable.columns, ¬ ("PRIMARY" : String).data <+: p.1.data) ∧
    (ddl_col_lines scenarioTable).countP isPkClauseLine = 1 ∧
    (ddl_col_lines scenarioTable).getLast? = some "    PRIMARY KEY (id)" := by
  refine ⟨by decide, ?_, ?_⟩
  · have h := (claim_C5_pk_clause scenarioTable (by decide)).1
    rw [if_neg (by decide)] at h
    exact h
  · have h := (claim_C5_pk_clause scenarioTable (by decide)).2.1 (by decide)
    rw [h]
    decide

/-- C6: every DDL column line is `<name> <ddl_type>`, then ` NOT NULL`
exactly when the column is non-nullable, then ` DEFAULT <expr>` exactly
when the column has a (truthy) default; in particular the line decomposes
with a ` NOT NULL` segment after the type iff `nullable = false`. -/
theorem claim_C6_column_line (n : String) (c : ColumnDef) :
    ddlColLine (n, c) =
      "    " ++ n ++ " " ++ c.type ++ (if c.nullable then "" else " NOT NULL") ++
        (if hasDefault c then " DEFAULT " ++ c.default.getD "" else "")
    ∧ ((∃ D, (D = "" ∨ ∃ d, D = " DEFAULT " ++ d) ∧
        ddlColLine (n, c) = "    " ++ n ++ " " ++ c.type ++ " NOT NULL" ++ D) ↔
        c.nullable = false) := by
  constructor
  · cases hn : c.nullable <;> simp [ddlColLine, hn]
  · constructor
    · rintro ⟨D, hD, he⟩
      cases hn : c.nullable
      · rfl
      · exfalso
        unfold ddlColLine at he
        rw [hn] at he
        simp only [Bool.not_true, if_neg (by simp : ¬ (false = true))] at he
        rw [String.append_empty] at he
        rw [String.append_assoc ("    " ++ n ++ " " ++ c.type)] at he
        have he2 := append_left_cancel_str he
        by_cases hdf : hasDefault c
        · rw [if_pos hdf] at he2
          have h3 := congrArg String.data he2
          simp [String.data_append] at h3
        · rw [if_neg hdf] at he2
          have h3 := congrArg String.data he2
          simp [String.data_append] at h3
    · intro hn
      refine ⟨if hasDefault c then " DEFAULT " ++ c.default.getD "" else "", ?_, ?_⟩
      · by_cases hdf : hasDefault c
        · rw [if_pos hdf]
          exact Or.inr ⟨c.default.getD "", rfl⟩
        · rw [if_neg hdf]
          exact Or.inl rfl
      · unfold ddlColLine
        rw [hn]
        rfl

theorem col_parts_eq (c : ColumnDef) :
    col_parts c = colFirst c ::
      ((if c.primary_key then ["primary_key=True"] else []) ++
       (if !c.nullable then ["nullable=False"] else []) ++
       (if c.default = some "CURRENT_TIMESTAMP" then ["default=func.now()"]
        else if hasDefault c then ["default=" ++ c.default.getD ""] else [])) := rfl

theorem colFirst_head (c : ColumnDef) : (colFirst c).data.head? = some 'C' := by
  unfold colFirst
  cases hr : (resolve_ddl c.type).2 with
  | none => exact head?_append_cons _ rfl
  | some ps =>
    show (if ps.data ≠ [] ∧ (sqlalchemy_type_map (resolve_ddl c.type).1 = "String" ∨
        sqlalchemy_type_map (resolve_ddl c.type).1 = "Numeric") then
        "Column(" ++ sqlalchemy_type_map (resolve_ddl c.type).1 ++ "(" ++ ps ++ ")"
      else "Column(" ++ sqlalchemy_type_map (resolve_ddl c.type).1).data.head? = some 'C'
    by_cases hc : ps.data ≠ [] ∧ (sqlalchemy_type_map (resolve_ddl c.type).1 = "String" ∨
        sqlalchemy_type_map (resolve_ddl c.type).1 = "Numeric")
    · rw [if_pos hc]
      simp only [String.append_assoc]
      exact head?_append_cons _ rfl
    · rw [if_neg hc]
      exact head?_append_cons _ rfl

/-- C7: a `primary_key = true` column is treated as non-nullable in every
artifact: its dataclass field is plain (no `Optional`, no `= None`), its
SQLAlchemy binding carries `primary_key=True` and never a `nullable=True`
marker, and the DDL lists it inside the `PRIMARY KEY (...)` clause which
is emitted for its table. -/
theorem claim_C7_pk_non_nullable (td : TableDef) (n : String) (c : ColumnDef)
    (hmem : (n, c) ∈ td.columns) (hpk : c.primary_key = true) :
    dataclassFieldLine (n, c) =
      "    " ++ n ++ ": " ++ c.python_type ++ "  # " ++ c.description.getD ""
    ∧ "primary_key=True" ∈ col_parts c
    ∧ (∀ part ∈ col_parts c, part ≠ "nullable=True")
    ∧ n ∈ pkCols td
    ∧ pkCols td ≠ []
    ∧ ddl_col_lines td = td.columns.map ddlColLine ++
        ["    PRIMARY KEY (" ++ pyJoin ", " (pkCols td) ++ ")"] := by
  have hnmem : n ∈ pkCols td := by
    unfold pkCols
    exact List.mem_map.mpr ⟨(n, c), List.mem_filter.mpr ⟨hmem, by simp [hpk]⟩, rfl⟩
  have hne : pkCols td ≠ [] := List.ne_nil_of_mem hnmem
  refine ⟨?_, ?_, ?_, hnmem, hne, ?_⟩
  · simp [dataclassFieldLine, hpk]
  · rw [col_parts_eq]
    refine List.mem_cons_of_mem _ (List.mem_append_left _ (List.mem_append_left _ ?_))
    rw [if_pos hpk]
    exact List.mem_cons_self _ _
  · intro part hp
    rw [col_parts_eq] at hp
    rcases List.mem_cons.mp hp with h1 | h1
    · subst h1
      exact strNe_of_head (by rw [colFirst_head]; decide)
    · rcases List.mem_append.mp h1 with h2 | h2
      · rcases List.mem_append.mp h2 with h3 | h3
        · by_cases hb : c.primary_key
          · rw [if_pos hb] at h3
            rcases List.mem_cons.mp h3 with h4 | h4
            · subst h4; decide
            · exact absurd h4 (List.not_mem_nil part)
          · rw [if_neg hb] at h3
            exact absurd h3 (List.not_mem_nil part)
        · by_cases hb : !c.nullable
          · rw [if_pos hb] at h3
            rcases List.mem_cons.mp h3 with h4 | h4
            · subst h4; decide
            · exact absurd h4 (List.not_mem_nil part)
          · rw [if_neg hb] at h3
            exact absurd h3 (List.not_mem_nil part)
      · by_cases hb : c.default = some "CURRENT_TIMESTAMP"
        · rw [if_pos hb] at h2
          rcases List.mem_cons.mp h2 with h4 | h4
          · subst h4; decide
          · exact absurd h4 (List.not_mem_nil part)
        · rw [if_neg hb] at h2
          by_cases hd : hasDefault c
          · rw [if_pos hd] at h2
            rcases List.mem_cons.mp h2 with h4 | h4
            · subst h4
              exact strNe_of_head (by rw [head?_append_cons _ (rfl :
                ("default=" : String).data = 'd' :: ['e', 'f', 'a', 'u', 'l', 't', '='])]; decide)
            · exact absurd h4 (List.not_mem_nil part)
          · rw [if_neg hd] at h2
            exact absurd h2 (List.not_mem_nil part)
  · unfold ddl_col_lines
    rw [if_neg hne]

/-- C7 witness: the scenario table's `id` column. -/
theorem claim_C7_witness :
    (("id", idColumn) ∈ scenarioTable.columns) ∧
    dataclassFieldLine ("id", idColumn) = "    id: int  # " ∧
    "id" ∈ pkCols scenarioTable := by
  refine ⟨by decide, ?_, ?_⟩
  · have h := claim_C7_pk_non_nullable scenarioTable "id" idColumn (by decide) rfl
    rw [h.1]
    decide
  · exact (claim_C7_pk_non_nullable scenarioTable "id" idColumn (by decide) rfl).2.2.2.1

/-- C3: a parameterized ddl type `base(params)` (well-formed: no nested
parentheses, no stray closing parenthesis in the parameters) decomposes at
the first `(` into the base and the verbatim parameter text, and the full
ddl type string appears byte-identical inside its DDL column line. -/
theorem claim_C3_type_roundtrip (b p : String)
    (hb : '(' ∉ b.data) (hp1 : '(' ∉ p.data) (hp2 : ')' ∉ p.data) :
    resolve_ddl (b ++ "(" ++ p ++ ")") = (b, some p)
    ∧ ∀ (n : String) (c : ColumnDef), c.type = b ++ "(" ++ p ++ ")" →
        ∃ A B, ddlColLine (n, c) = A ++ (b ++ "(" ++ p ++ ")") ++ B := by
  constructor
  · unfold resolve_ddl
    have hd : (b ++ "(" ++ p ++ ")").data = b.data ++ '(' :: (p.data ++ [')']) := by
      have h1 : ("(" : String).data = ['('] := rfl
      have h2 : (")" : String).data = [')'] := rfl
      simp [String.data_append, h1, h2]
    have hrest : '(' ∉ p.data ++ [')'] := by
      intro hmem
      rcases List.mem_append.mp hmem with h1 | h1
      · exact hp1 h1
      · simp at h1
    rw [hd, splitOnChar_append_cons, splitOnChar_of_not_mem hb,
      splitOnChar_of_not_mem hrest]
    have hr : rstripRParen (p.data ++ [')']) = p.data := by
      unfold rstripRParen
      rw [List.reverse_append]
      have h1 : (([')'] : List Char).reverse ++ p.data.reverse) = ')' :: p.data.reverse := rfl
      rw [h1, List.dropWhile_cons_of_pos (by decide)]
      have hall : ∀ x ∈ p.data.reverse, (fun c => decide (c = ')')) x = false := by
        intro x hx
        have hx2 : x ∈ p.data := List.mem_reverse.mp hx
        simp only [decide_eq_false_iff_not]
        intro he
        subst he
        exact hp2 hx2
      rw [dropWhile_eq_self_of_all hall, List.reverse_reverse]
    show (String.mk b.data, some (String.mk (rstripRParen (p.data ++ [')'])))) = (b, some p)
    rw [hr]
  · intro n c hc
    refine ⟨"    " ++ n ++ " ",
      (if !c.nullable then " NOT NULL" else "") ++
        (if hasDefault c then " DEFAULT " ++ c.default.getD "" else ""), ?_⟩
    unfold ddlColLine
    rw [hc]
    simp [String.append_assoc]

/-- C3 witness: `VARCHAR(50)` decomposes to base `VARCHAR`, params `50`,
and appears verbatim in its DDL column line. -/
theorem claim_C3_witness :
    ('(' ∉ ("VARCHAR" : String).data) ∧
    resolve_ddl "VARCHAR(50)" = ("VARCHAR", some "50") ∧
    ddlColLine ("name", varchar50Column) =
      "    name " ++ "VARCHAR(50)" ++ " NOT NULL" := by
  refine ⟨by decide, ?_, by decide⟩
  have h := (claim_C3_type_roundtrip "VARCHAR" "50" (by decide) (by decide) (by decide)).1
  have he : ("VARCHAR" ++ "(" ++ "50" ++ ")" : String) = "VARCHAR(50)" := by decide
  rw [he] at h
  exact h

/-- C2 (code bug): `generate_dataclass` performs no required-first
reordering.  On a table that declares an optional column (`note`,
nullable, non-key) before a required one (`id`, primary key), the emitted
field lines keep schema order: the defaulted `note: Optional[str] = None`
precedes the non-defaulted `id: int`, contradicting the required-first
rule (and producing an invalid Python dataclass, since a field without a
default may not follow a field with one). -/
theorem claim_C2_code_behavior :
    dataclass_lines "bad_table" optionalFirstTable =
      ["from dataclasses import dataclass", "from typing import Optional",
       "", "", "@dataclass", "class BadTable:",
       "    \"\"\"", "    Data class for bad_table table", "    \"\"\"",
       "    note: Optional[str] = None  # ",
       "    id: int  # "] := by decide

/-- C9 counterexample: for ddl type `INTEGER(11)` (one parameter, base
mapped to `BigInteger`), the emitted binding drops the parameter instead
of using a sized constructor: the line is `Column(BigInteger)` and the
parameter text `(11` appears nowhere in it. -/
theorem claim_C9_counterexample :
    modelColLine ("qty", intParamColumn) = "    qty = Column(BigInteger)  # " ∧
    ¬ ("(11" : String).data <:+: (modelColLine ("qty", intParamColumn)).data := by
  exact ⟨by decide, by decide⟩

/-- C9 (amended): when the ddl type carries truthy parameters, the
parameters are appended verbatim to the mapped constructor exactly when
that constructor is `String` (sized string, including the unmapped-base
fallback) or `Numeric` (fixed point, precision and scale in the order
given); for every other constructor the parameters are dropped. -/
theorem claim_C9_params (c : ColumnDef) (b ps : String)
    (hres : resolve_ddl c.type = (b, some ps)) (hps : ps.data ≠ []) :
    ((sqlalchemy_type_map b = "String" ∨ sqlalchemy_type_map b = "Numeric") →
      (col_parts c).head? = some ("Column(" ++ sqlalchemy_type_map b ++ "(" ++ ps ++ ")"))
    ∧ (¬ (sqlalchemy_type_map b = "String" ∨ sqlalchemy_type_map b = "Numeric") →
      (col_parts c).head? = some ("Column(" ++ sqlalchemy_type_map b)) := by
  have h1 : (resolve_ddl c.type).1 = b := by rw [hres]
  have h2 : (resolve_ddl c.type).2 = some ps := by rw [hres]
  have hh : (col_parts c).head? = some (colFirst c) := by rw [col_parts_eq]; rfl
  constructor
  · intro hsa
    rw [hh]
    unfold colFirst
    rw [h2]
    show some (if ps.data ≠ [] ∧ (sqlalchemy_type_map (resolve_ddl c.type).1 = "String" ∨
        sqlalchemy_type_map (resolve_ddl c.type).1 = "Numeric") then
        "Column(" ++ sqlalchemy_type_map (resolve_ddl c.type).1 ++ "(" ++ ps ++ ")"
      else "Column(" ++ sqlalchemy_type_map (resolve_ddl c.type).1) = _
    rw [h1, if_pos ⟨hps, hsa⟩]
  · intro hsa
    rw [hh]
    unfold colFirst
    rw [h2]
    show some (if ps.data ≠ [] ∧ (sqlalchemy_type_map (resolve_ddl c.type).1 = "String" ∨
        sqlalchemy_type_map (resolve_ddl c.type).1 = "Numeric") then
        "Column(" ++ sqlalchemy_type_map (resolve_ddl c.type).1 ++ "(" ++ ps ++ ")"
      else "Column(" ++ sqlalchemy_type_map (resolve_ddl c.type).1) = _
    rw [h1, if_neg (fun hcon => hsa hcon.2)]

/-- C9 witness: `VARCHAR(50)` gets the sized string constructor
`String(50)`; `INTEGER(11)` keeps plain `BigInteger`. -/
theorem claim_C9_params_witness :
    (col_parts varchar50Column).head? = some "Column(String(50)" ∧
    (col_parts intParamColumn).head? = some "Column(BigInteger" := by
  constructor
  · have h := (claim_C9_params varchar50Column "VARCHAR" "50" (by decide) (by decide)).1
      (by decide)
    rw [h]
    decide
  · have h := (claim_C9_params intParamColumn "INTEGER" "11" (by decide) (by decide)).2
      (by decide)
    rw [h]
    decide

/-- C8: a missing schema file or unparsable schema content makes the run
abort with the corresponding load error before any file-system effect:
no output directory is created and no file is written. -/
theorem claim_C8_load_failure (parseJson : String → Option Schema) (file : Option String)
    (now outputDir : String)
    (h : file = none ∨ ∃ content, file = some content ∧ parseJson content = none) :
    (file = none →
      runGenerator parseJson file now outputDir = .error SchemaLoadError.fileMissing)
    ∧ (∀ content, file = some content → parseJson content = none →
      runGenerator parseJson file now outputDir = .error SchemaLoadError.parseError)
    ∧ (∃ e, runGenerator parseJson file now outputDir = .error e)
    ∧ (∀ evs, runGenerator parseJson file now outputDir ≠ .ok evs) := by
  rcases h with h | ⟨content, hf, hp⟩
  · subst h
    refine ⟨fun _ => rfl, ?_, ⟨SchemaLoadError.fileMissing, rfl⟩, ?_⟩
    · intro content hc
      cases hc
    · intro evs hevs
      cases hevs
  · subst hf
    have hload : load_schema parseJson (some content) =
        .error SchemaLoadError.parseError := by
      show (match parseJson content with
        | none => (Except.error SchemaLoadError.parseError : Except SchemaLoadError Schema)
        | some sc => Except.ok sc) = Except.error SchemaLoadError.parseError
      rw [hp]
    have hrun : runGenerator parseJson (some content) now outputDir =
        .error SchemaLoadError.parseError := by
      unfold runGenerator
      rw [hload]
    refine ⟨fun hc => Option.noConfusion hc, ?_, ⟨SchemaLoadError.parseError, hrun⟩, ?_⟩
    · intro c hc hpc
      cases hc
      exact hrun
    · intro evs hevs
      rw [hrun] at hevs
      cases hevs

/-- C8 witness: with a missing file, the run fails with `fileMissing` and
produces nothing. -/
theorem claim_C8_witness :
    ((none : Option String) = none ∨
      ∃ content, (none : Option String) = some content ∧
        (fun _ : String => (none : Option Schema)) content = none) ∧
    runGenerator (fun _ => none) none "t" "generated" =
      .error SchemaLoadError.fileMissing := by
  refine ⟨Or.inl rfl, ?_⟩
  exact (claim_C8_load_failure (fun _ => none) none "t" "generated" (Or.inl rfl)).1 rfl

theorem strLines_pyJoin_cons_noNL {x : String} {xs : List String}
    (hx : noNL x) (hxs : xs ≠ []) :
    strLines (pyJoin "\n" (x :: xs)) = x :: strLines (pyJoin "\n" xs) := by
  cases xs with
  | nil => exact absurd rfl hxs
  | cons y ys =>
    rw [pyJoin_cons_cons, strLines_glue, strLines_of_noNL hx]
    rfl

/-- C1 (amended): the table artifacts and the combined module are
byte-identical across two runs regardless of the clock; the migration
script embeds the run's timestamp in its third line and is byte-identical
exactly up to that line: its line 3 is `-- Generated at: <now>`, deleting
line 3 yields identical text for both runs, and runs observing the same
timestamp produce fully identical outputs. -/
theorem claim_C1_determinism (s : Schema) (now₁ now₂ : String)
    (hv : noNL (s.version.getD "unknown")) (h₁ : noNL now₁) (h₂ : noNL now₂) :
    (generate_outputs s now₁).dataclasses = (generate_outputs s now₂).dataclasses
    ∧ (generate_outputs s now₁).models = (generate_outputs s now₂).models
    ∧ (generate_outputs s now₁).combined = (generate_outputs s now₂).combined
    ∧ (strLines (generate_outputs s now₁).migration).get? 2 =
        some ("-- Generated at: " ++ now₁)
    ∧ (strLines (generate_outputs s now₁).migration).eraseIdx 2 =
        (strLines (generate_outputs s now₂).migration).eraseIdx 2
    ∧ (now₁ = now₂ → generate_outputs s now₁ = generate_outputs s now₂) := by
  have hlines : ∀ now : String, noNL now →
      strLines (generate_outputs s now).migration =
        "-- Migration script generated from JSON schema" ::
        ("-- Schema version: " ++ s.version.getD "unknown") ::
        ("-- Generated at: " ++ now) ::
        strLines (pyJoin "\n" ("" :: (s.tables.map tableMigrationLines).flatten)) := by
    intro now hn
    show strLines (pyJoin "\n" (migration_lines s now)) = _
    unfold migration_lines
    rw [List.cons_append, List.cons_append, List.cons_append, List.cons_append,
      List.nil_append]
    rw [strLines_pyJoin_cons_noNL (by decide) (by simp)]
    rw [strLines_pyJoin_cons_noNL (noNL_append.mpr ⟨by decide, hv⟩) (by simp)]
    rw [strLines_pyJoin_cons_noNL (noNL_append.mpr ⟨by decide, hn⟩) (by simp)]
  refine ⟨rfl, rfl, rfl, ?_, ?_, ?_⟩
  · rw [hlines now₁ h₁]
    rfl
  · rw [hlines now₁ h₁, hlines now₂ h₂]
    rfl
  · intro he
    rw [he]

/-- C1 witness of the amended claim at the §8 scenario schema. -/
theorem claim_C1_determinism_witness :
    noNL (scenarioSchema.version.getD "unknown") ∧
    (strLines (generate_outputs scenarioSchema "2025-01-01T00:00:00").migration).get? 2 =
      some "-- Generated at: 2025-01-01T00:00:00" ∧
    (strLines (generate_outputs scenarioSchema "2025-01-01T00:00:00").migration).eraseIdx 2 =
      (strLines (generate_outputs scenarioSchema "2025-01-01T00:00:01").migration).eraseIdx 2 := by
  have h := claim_C1_determinism scenarioSchema "2025-01-01T00:00:00" "2025-01-01T00:00:01"
    (by decide) (by decide) (by decide)
  refine ⟨by decide, ?_, h.2.2.2.2.1⟩
  rw [h.2.2.2.1]
  decide

/-- C1 counterexample: two runs of the generator over the same schema at
different clock readings write different bytes for `migration.sql`
(the `Generated at` comment line differs), so the outputs of the two runs
are not byte-identical as the claim states. -/
theorem claim_C1_counterexample :
    (generate_outputs scenarioSchema "2025-01-01T00:00:00").migration ≠
      (generate_outputs scenarioSchema "2025-01-01T00:00:01").migration := by
  decide

theorem flatten_map_singleton {α β : Type} {l : List α} {g : α → List β} {f : α → β}
    (h : ∀ p ∈ l, g p = [f p]) : (l.map g).flatten = l.map f := by
  induction l with
  | nil => rfl
  | cons x xs ih =>
    rw [List.map_cons, List.map_cons, List.flatten_cons,
      h x (List.mem_cons_self x xs),
      ih (fun p hp => h p (List.mem_cons_of_mem x hp))]
    rfl

set_option maxHeartbeats 2000000 in
/-- C4: the combined module contains exactly one
`Base = declarative_base()` registry line; its class-declaration lines
are exactly one per table, in schema declaration order; and its import
block is the sorted deduplication of the per-table import lines
(sorted, duplicate-free, same membership as the union). -/
theorem claim_C4_combined_module (s : Schema) (h : schemaNoNL s) :
    (strLines (combined_models s)).count "Base = declarative_base()" = 1
    ∧ (strLines (combined_models s)).filter isClassLine =
        s.tables.map (fun p => modelClassLine p.1)
    ∧ (combinedImportLines s).Pairwise strLe
    ∧ (combinedImportLines s).Nodup
    ∧ ∀ l, l ∈ combinedImportLines s ↔
        l ∈ (s.tables.map
          (fun p => extract_imports (generate_sqlalchemy_model p.1 p.2))).flatten := by
  refine ⟨?_, ?_, pairwise_sortDedup _, nodup_sortDedup _, fun l => mem_sortDedup⟩
  · rw [strLines_combined, List.count_append, List.count_append]
    rw [count_base_imports_part h]
    have hmid : (["", "Base = declarative_base()", ""] : List String).count
        "Base = declarative_base()" = 1 := by decide
    rw [hmid]
    rw [count_base_pyJoin3 (fun x hx => by
      rcases List.mem_map.mp hx with ⟨p, hp, he⟩
      rw [← he]
      exact count_base_class_section (h p hp))]
  · rw [strLines_combined, List.filter_append, List.filter_append]
    rw [filter_class_imports_part h]
    have hmid : (["", "Base = declarative_base()", ""] : List String).filter
        isClassLine = [] := by decide
    rw [hmid, filter_class_pyJoin3, List.map_map]
    rw [List.nil_append, List.nil_append]
    have hfun : ∀ p ∈ s.tables,
        ((fun x => (strLines x).filter isClassLine) ∘
          (fun p : String × TableDef => class_section (generate_sqlalchemy_model p.1 p.2))) p =
        [modelClassLine p.1] := by
      intro p hp
      show (strLines (class_section (generate_sqlalchemy_model p.1 p.2))).filter isClassLine =
        [modelClassLine p.1]
      exact filter_class_class_section (h p hp)
    exact flatten_map_singleton hfun

/-- C4 witness at the §8 scenario schema. -/
theorem claim_C4_witness :
    schemaNoNL scenarioSchema ∧
    (strLines (combined_models scenarioSchema)).count "Base = declarative_base()" = 1 ∧
    (strLines (combined_models scenarioSchema)).filter isClassLine =
      ["class TestTable(Base):"] := by
  refine ⟨by decide, (claim_C4_combined_module scenarioSchema (by decide)).1, ?_⟩
  have h := (claim_C4_combined_module scenarioSchema (by decide)).2.1
  rw [h]
  decide

/-- C10: every per-table model contains a line starting with `class `
(the extraction in `main` is total); the extracted class section is
char-for-char the suffix of the standalone artifact from that line on
(the artifact is exactly the fixed header, a newline, and the section);
the section's first line is the class declaration; and for any schema
containing the table, that identical section text occurs inside the
combined module. -/
theorem claim_C10_section_identity (tn : String) (td : TableDef) (h : tableNoNL tn td) :
    (∃ l ∈ strLines (generate_sqlalchemy_model tn td), isClassLine l = true)
    ∧ generate_sqlalchemy_model tn td =
        pyJoin "\n" model_header_lines ++ "\n" ++
          class_section (generate_sqlalchemy_model tn td)
    ∧ strLines (class_section (generate_sqlalchemy_model tn td)) =
        modelClassLine tn :: modelTailLines tn td
    ∧ ∀ s : Schema, (tn, td) ∈ s.tables →
        ∃ A B, combined_models s =
          A ++ class_section (generate_sqlalchemy_model tn td) ++ B := by
  refine ⟨?_, model_split h, strLines_class_section h, ?_⟩
  · refine ⟨modelClassLine tn, ?_, isClassLine_modelClassLine tn⟩
    rw [strLines_model h, model_lines_eq]
    exact List.mem_append_right _ (List.mem_cons_self _ _)
  · intro s hmem
    have hsec : class_section (generate_sqlalchemy_model tn td) ∈
        s.tables.map (fun p => class_section (generate_sqlalchemy_model p.1 p.2)) :=
      List.mem_map.mpr ⟨(tn, td), hmem, rfl⟩
    obtain ⟨A, B, hAB⟩ := pyJoin_mem hsec "\n\n\n"
    refine ⟨pyJoin "\n" (combinedImportLines s) ++ "\n\nBase = declarative_base()\n\n" ++ A,
      B, ?_⟩
    unfold combined_models
    rw [hAB]
    simp [String.append_assoc]

/-- C10 witness at the §8 scenario table. -/
theorem claim_C10_witness :
    tableNoNL "test_table" scenarioTable ∧
    (∃ l ∈ strLines (generate_sqlalchemy_model "test_table" scenarioTable),
      isClassLine l = true) ∧
    strLines (class_section (generate_sqlalchemy_model "test_table" scenarioTable)) =
      modelClassLine "test_table" :: modelTailLines "test_table" scenarioTable := by
  refine ⟨by decide, ?_, ?_⟩
  · exact (claim_C10_section_identity "test_table" scenarioTable (by decide)).1
  · exact (claim_C10_section_identity "test_table" scenarioTable (by decide)).2.2.1
